import Mathlib

/-!
Verification of the alien-ai batch pipeline (`generate_jsonl.py`, `run_batch.py`).

The Python sources are shallowly embedded: strings become `List Char`,
dicts written to JSONL become an explicit serializer mirroring `json.dumps`
with its default separators, and the polling loop of `run_batch.py` becomes
a fuel-indexed recursion over a status oracle.
-/

namespace AlienAI

/-- Characters of a string literal, the representation used for Python `str`. -/
def cl (s : String) : List Char := s.toList

/-! ### `safe_stem_from_url` (generate_jsonl.py) -/

/-- Python `str.strip()` whitespace: the characters with the Unicode
whitespace property, as Python classifies them. -/
def isPySpace (c : Char) : Bool :=
  (9 ≤ c.toNat && c.toNat ≤ 13) || (28 ≤ c.toNat && c.toNat ≤ 31) ||
  c.toNat == 32 || c.toNat == 133 || c.toNat == 160 || c.toNat == 0x1680 ||
  (0x2000 ≤ c.toNat && c.toNat ≤ 0x200A) || c.toNat == 0x2028 ||
  c.toNat == 0x2029 || c.toNat == 0x202F || c.toNat == 0x205F || c.toNat == 0x3000

/-- Python `url.strip()`: drop leading and trailing whitespace. -/
def pyStrip (cs : List Char) : List Char :=
  ((cs.dropWhile isPySpace).reverse.dropWhile isPySpace).reverse

/-- Python `s.split("?")[0]`: the part before the first `?`. -/
def stripQuery (cs : List Char) : List Char := cs.takeWhile (fun c => c ≠ '?')

/-- Python `s.split("/")[-1]`: the segment after the last `/`
(the whole string when there is no `/`). -/
def lastSegment (cs : List Char) : List Char :=
  cs.foldl (fun acc c => if c = '/' then [] else acc ++ [c]) []

/-- Membership in the character class `[A-Za-z0-9._-]` of the
`re.sub` call in `safe_stem_from_url`. -/
def isSafeChar (c : Char) : Bool :=
  ('A' ≤ c && c ≤ 'Z') || ('a' ≤ c && c ≤ 'z') || ('0' ≤ c && c ≤ '9') ||
  c == '.' || c == '_' || c == '-'

/-- Python `re.sub(r"[^A-Za-z0-9._-]", "_", s)`. -/
def sanitize (cs : List Char) : List Char :=
  cs.map (fun c => if isSafeChar c then c else '_')

/-- `safe_stem_from_url` from generate_jsonl.py:
`stem = url.strip().split("?")[0].split("/")[-1] or "image"`,
then `re.sub(r"[^A-Za-z0-9._-]", "_", stem)`, then `stem[:60]`. -/
def safe_stem_from_url (url : List Char) : List Char :=
  let seg := lastSegment (stripQuery (pyStrip url))
  let stem := if seg = [] then cl "image" else seg
  (sanitize stem).take 60

/-! ### Decimal rendering: Python `f"{idx:05d}"` -/

/-- The decimal digit character for `d < 10`. -/
def digitChar (d : Nat) : Char := Char.ofNat (48 + d)

/-- Decimal digits of `n`, most significant first; structural on the fuel. -/
def toDecimalAux : Nat → Nat → List Char
  | 0, _ => []
  | fuel + 1, n =>
      if n < 10 then [digitChar n]
      else toDecimalAux fuel (n / 10) ++ [digitChar (n % 10)]

/-- The decimal representation of `n` (as Python `str(n)` for `n : Nat`). -/
def toDecimal (n : Nat) : List Char := toDecimalAux (n + 1) n

/-- Python `f"{n:05d}"` for a non-negative `n`: the decimal digits of `n`,
left-padded with `0` to width 5. -/
def pad5 (n : Nat) : List Char :=
  List.replicate (5 - (toDecimal n).length) '0' ++ toDecimal n

/-- The `custom_id` of `make_request_line`: `f"ui-{idx:05d}-{safe_stem_from_url(url)}"`. -/
def customId (idx : Nat) (url : List Char) : List Char :=
  cl "ui-" ++ pad5 idx ++ '-' :: safe_stem_from_url url

/-! ### The request record produced by `make_request_line` -/

/-- The varying content of one request line built by `make_request_line`:
its `custom_id`, the `image_url` (`url.strip()`), the model name, and the
decimal literal of the temperature.  All other content of the emitted dict
is fixed by the source. -/
structure RequestLine where
  custom_id : List Char
  target : List Char
  model : List Char
  temp : List Char
deriving DecidableEq, Repr

/-- `make_request_line(idx, url, model, temperature)` from generate_jsonl.py,
restricted to the varying fields of the emitted dict. -/
def make_request_line (idx : Nat) (url model temp : List Char) : RequestLine :=
  { custom_id := customId idx url
    target := pyStrip url
    model := model
    temp := temp }

/-- The encoder loop of `main` in generate_jsonl.py:
`for i, url in enumerate(urls, start=1): make_request_line(i, url, ...)`,
generalized over the starting index `i`. -/
def requestLines (model temp : List Char) : Nat → List (List Char) → List RequestLine
  | _, [] => []
  | i, u :: us => make_request_line i u model temp :: requestLines model temp (i + 1) us

/-! ### Reading the index back out of a `custom_id` -/

/-- One step of parsing a decimal numeral. -/
def decStep (acc : Nat) (c : Char) : Nat := 10 * acc + (c.toNat - 48)

/-- The value of a decimal numeral, most significant digit first. -/
def ofDecimal (cs : List Char) : Nat := cs.foldl decStep 0

/-- The sequence index encoded in a `custom_id`: the digits between
the `ui-` frame and the following `-`. -/
def decodeIdx (cs : List Char) : Nat :=
  ofDecimal ((cs.drop 3).takeWhile (fun c => c != '-'))

/-! ### The slug of claim C5, written from the spec's words -/

/-- The slug derivation exactly as the spec sentence behind C5 states it:
strip query parameters, take the trailing path segment, replace every
character outside `[A-Za-z0-9._-]` with `_`, truncate to the maximum
length.  Written for comparison with `safe_stem_from_url`. -/
def specSlugC5 (url : List Char) : List Char :=
  (sanitize (lastSegment (stripQuery url))).take 60

/-- The amended slug of C5: the same derivation applied to the
whitespace-stripped target, except that when the trailing path segment is
empty the literal stem `image` is used instead. -/
def amendedSlugC5 (url : List Char) : List Char :=
  let seg := lastSegment (stripQuery (pyStrip url))
  if seg = [] then cl "image" else (sanitize seg).take 60

/-! ### run_batch.py: terminal statuses, polling loop, download phase -/

/-- `TERMINAL = {"completed", "failed", "expired", "cancelled"}` from run_batch.py. -/
def TERMINAL : List String := ["completed", "failed", "expired", "cancelled"]

/-- The loop guard `status in TERMINAL`. -/
def isTerminal (s : String) : Bool := TERMINAL.contains s

/-- One status snapshot as `client.batches.retrieve` returns it: the fields
run_batch.py reads (`status`, `output_file_id`, `error_file_id`). -/
structure Snapshot where
  status : String
  output_file_id : Option String
  error_file_id : Option String
deriving DecidableEq, Repr

/-- Observable events of the polling loop: a status query (progress is
printed right after it) and a `time.sleep(args.poll)`. -/
inductive PollEvent where
  | query (status : String)
  | sleep
deriving DecidableEq, Repr

/-- The event trace of the `while True` polling loop of run_batch.py,
querying an oracle `retrieve` from the `k`-th retrieve on; `fuel` bounds
the observation window (the source loop itself is unbounded). -/
def pollTrace (retrieve : Nat → Snapshot) : Nat → Nat → List PollEvent
  | 0, _ => []
  | fuel + 1, k =>
      PollEvent.query (retrieve k).status ::
        (if isTerminal (retrieve k).status then []
         else PollEvent.sleep :: pollTrace retrieve fuel (k + 1))

/-- The result of the polling loop within `fuel` iterations: the total
number of queries issued and the final snapshot, or `none` while the loop
is still running. -/
def pollLoop (retrieve : Nat → Snapshot) : Nat → Nat → Option (Nat × Snapshot)
  | 0, _ => none
  | fuel + 1, k =>
      if isTerminal (retrieve k).status then some (k + 1, retrieve k)
      else pollLoop retrieve fuel (k + 1)

/-- The output-download branch of run_batch.py:
`if getattr(b, "output_file_id", None): save_file(...)`, with `files`
mapping a file id to the lines of its content. -/
def savedOutput (files : String → List String) (b : Snapshot) : Option (List String) :=
  b.output_file_id.map files

/-- The error-download branch, in the same way. -/
def savedErrors (files : String → List String) (b : Snapshot) : Option (List String) :=
  b.error_file_id.map files

/-- Every per-item outcome record the run persists after the loop: the
lines of the saved output artifact followed by those of the saved error
artifact.  run_batch.py produces nothing else from a terminal job. -/
def resultRecords (files : String → List String) (b : Snapshot) : List String :=
  (savedOutput files b).getD [] ++ (savedErrors files b).getD []

/-- The whole tail of `main` after submission: poll to a terminal status,
then download; `none` while the loop is still running within `fuel`. -/
def runTail (retrieve : Nat → Snapshot) (files : String → List String)
    (fuel : Nat) : Option (List PollEvent × List String) :=
  match pollLoop retrieve fuel 0 with
  | some (_, b) => some (pollTrace retrieve fuel 0, resultRecords files b)
  | none => none

/-! ### `json.dumps` of the request dict (generate_jsonl.py `main`) -/

/-- `PROMPT` from generate_jsonl.py (the adjacent string literals, concatenated). -/
def PROMPT : String := "Rate screenshots on three 1–10 integer scales:1. Aesthetic — visual quality based on layout, color, typography, and polish.Avoid high scores for flat or noisy designs.2. Level of Detail — richness and structure of components, organization. Be forgiving with sparse drafts; lightly penalize repetition.3. Utility for Designers — usefulness for design inspiration, based on aesthetic+detail but adjusted for clarity and layout richness.4. Orderliness — how orderly the UI appears.5. Complexity - how visually complex the UI appears in the screenshot6. Overall - rate the website design on a 10 point scaleReturn only numbers (no explanations)."

/-- `DIMENSIONS` from generate_jsonl.py. -/
def DIMENSIONS : List String :=
  ["aesthetics", "level_of_detail", "utility_for_designer", "orderliness",
   "complexity", "overall"]

/-- `'\x7b'`. -/
def lbrace : Char := Char.ofNat 123

/-- `'\x7d'`. -/
def rbrace : Char := Char.ofNat 125

/-- Lower-case hexadecimal digit, as Python `"%04x"` renders one. -/
def hexDigit (d : Nat) : Char := if d < 10 then digitChar d else Char.ofNat (87 + d)

/-- One character, escaped the way `json.dumps(..., ensure_ascii=False)`
escapes it: `\\`, `\"`, the short escapes for backspace, form feed,
newline, carriage return and tab, `\u00xx` for the other control
characters, and every other character unchanged. -/
def escChar (c : Char) : List Char :=
  if c = '\\' then ['\\', '\\']
  else if c = '"' then ['\\', '"']
  else if c = '\x08' then ['\\', 'b']
  else if c = '\x0c' then ['\\', 'f']
  else if c = '\n' then ['\\', 'n']
  else if c = '\r' then ['\\', 'r']
  else if c = '\t' then ['\\', 't']
  else if c.toNat < 32 then
    ['\\', 'u', '0', '0', hexDigit (c.toNat / 16), hexDigit (c.toNat % 16)]
  else [c]

/-- A string, escaped character by character. -/
def escStr : List Char → List Char
  | [] => []
  | c :: cs => escChar c ++ escStr cs

/-- A JSON string literal: quote, escaped content, quote. -/
def jStr (s : List Char) : List Char := '"' :: escStr s ++ ['"']

/-- `json.dumps` joins items with its default item separator `", "`. -/
def joinComma : List (List Char) → List Char
  | [] => []
  | [x] => x
  | x :: xs => x ++ ',' :: ' ' :: joinComma xs

/-- A serialized JSON object: keys in insertion order, the default
key separator `": "`. -/
def jObj (fields : List (List Char × List Char)) : List Char :=
  lbrace :: joinComma (fields.map (fun kv => jStr kv.1 ++ ':' :: ' ' :: kv.2)) ++ [rbrace]

/-- A serialized JSON array. -/
def jArr (elems : List (List Char)) : List Char := '[' :: joinComma elems ++ [']']

/-- A serialized non-negative JSON integer. -/
def jNat (n : Nat) : List Char := toDecimal n

/-- The serialization of one per-dimension entry of `build_json_schema`:
`{"type": "integer", "minimum": 1, "maximum": 10}`. -/
def propSchema : List Char :=
  jObj [(cl "type", jStr (cl "integer")), (cl "minimum", jNat 1), (cl "maximum", jNat 10)]

/-- The serialization of `build_json_schema(DIMENSIONS)`. -/
def schemaJson : List Char :=
  jObj [ (cl "type", jStr (cl "object")),
         (cl "additionalProperties", cl "false"),
         (cl "properties", jObj (DIMENSIONS.map (fun d => (cl d, propSchema)))),
         (cl "required", jArr (DIMENSIONS.map (fun d => jStr (cl d)))) ]

/-- The serialization of the fixed `"text"` field of the request body:
`{"format": {"type": "json_schema", "name": "UIRatings", "strict": true,
"schema": ...}}`. -/
def textFormat : List Char :=
  jObj [ (cl "format", jObj [
     (cl "type", jStr (cl "json_schema")),
     (cl "name", jStr (cl "UIRatings")),
     (cl "strict", cl "true"),
     (cl "schema", schemaJson) ]) ]

/-- `json.dumps(line, ensure_ascii=False)` for the dict returned by
`make_request_line`, field for field in the source's insertion order. -/
def serLine (r : RequestLine) : List Char :=
  jObj [ (cl "custom_id", jStr r.custom_id),
         (cl "method", jStr (cl "POST")),
         (cl "url", jStr (cl "/v1/responses")),
         (cl "body", jObj [
            (cl "model", jStr r.model),
            (cl "input", jArr [ jObj [
               (cl "role", jStr (cl "user")),
               (cl "content", jArr [
                  jObj [(cl "type", jStr (cl "input_text")), (cl "text", jStr (cl PROMPT))],
                  jObj [(cl "type", jStr (cl "input_image")), (cl "image_url", jStr r.target)] ]) ] ]),
            (cl "text", textFormat),
            (cl "temperature", r.temp),
            (cl "max_output_tokens", jNat 400) ]) ]

/-- The artifact lines of a run of generate_jsonl.py `main` over `urls`. -/
def artifactLines (model temp : List Char) (urls : List (List Char)) : List (List Char) :=
  (requestLines model temp 1 urls).map serLine

/-- The content written to the output file:
`f.write(json.dumps(line, ensure_ascii=False) + "\n")` per request. -/
def fileContent (model temp : List Char) (urls : List (List Char)) : List Char :=
  (artifactLines model temp urls).foldr (fun l acc => l ++ '\n' :: acc) []

/-- The newline-terminated lines of a file's content. -/
def linesNL : List Char → List (List Char)
  | [] => []
  | c :: cs =>
      if c = '\n' then [] :: linesNL cs
      else
        match linesNL cs with
        | [] => [[c]]
        | l :: ls => (c :: l) :: ls

/-! ### The artifact-building loop with a fallible serializer (claim C3) -/

/-- The writing loop of generate_jsonl.py `main` over an already opened
file, with a serializer that may fail (the spec's request that cannot be
encoded): each successfully serialized request is appended as one
newline-terminated line; a failure raises, aborting the loop, and the file
keeps what was already written.  Returns the final file content and the
error, if one occurred. -/
def buildArtifact {α : Type} (ser : α → Except String (List Char)) :
    List α → List Char → List Char × Option String
  | [], written => (written, none)
  | r :: rs, written =>
      match ser r with
      | Except.ok line => buildArtifact ser rs (written ++ line ++ ['\n'])
      | Except.error e => (written, some e)

/-- The whole build as `main` performs it: `out_path.open("w")` truncates
the final output path at once (whatever `prev` content it had), then the
loop appends to it.  There is no temporary file and no atomic rename. -/
def buildToFinalPath {α : Type} (ser : α → Except String (List Char))
    (items : List α) (_prev : List Char) : List Char × Option String :=
  buildArtifact ser items []

/-- The serialized lines of the items before the first failing one. -/
def serPrefixOk {α : Type} (ser : α → Except String (List Char)) : List α → List (List Char)
  | [] => []
  | r :: rs =>
      match ser r with
      | Except.ok line => line :: serPrefixOk ser rs
      | Except.error _ => []

/-- The first serialization error among the items, if any. -/
def firstSerErr {α : Type} (ser : α → Except String (List Char)) : List α → Option String
  | [] => none
  | r :: rs =>
      match ser r with
      | Except.ok _ => firstSerErr ser rs
      | Except.error e => some e

/-- A serializer that fails on every item but item `0`: a concrete
instance of the spec's non-serializable request. -/
def failingSer (n : Nat) : Except String (List Char) :=
  if n = 0 then Except.ok (cl "A") else Except.error "unserializable"

/-! ### An independent parser for one artifact line (claim C7) -/

/-- Expect an exact fragment at the head of the input. -/
def dropLit : List Char → List Char → Option (List Char)
  | [], cs => some cs
  | _ :: _, [] => none
  | p :: ps, c :: cs => if c = p then dropLit ps cs else none

/-- The value of one lower-case hexadecimal digit. -/
def hexVal (c : Char) : Option Nat :=
  if '0' ≤ c && c ≤ '9' then some (c.toNat - 48)
  else if 'a' ≤ c && c ≤ 'f' then some (c.toNat - 87)
  else none

/-- The character named by a JSON short escape. -/
def unescape (e : Char) : Option Char :=
  if e = '"' then some '"'
  else if e = '\\' then some '\\'
  else if e = 'n' then some '\n'
  else if e = 'r' then some '\r'
  else if e = 't' then some '\t'
  else if e = 'b' then some '\x08'
  else if e = 'f' then some '\x0c'
  else none

/-- The code point named by a `\uXXXX` escape. -/
def hex4 (a b c d : Char) : Option Nat :=
  (hexVal a).bind fun va =>
    (hexVal b).bind fun vb =>
      (hexVal c).bind fun vc =>
        (hexVal d).map fun vd => ((va * 16 + vb) * 16 + vc) * 16 + vd

/-- Parse the body of a JSON string literal up to its closing quote,
undoing the escapes; returns the decoded content and the rest. -/
def parseStrBody : List Char → List Char → Option (List Char × List Char)
  | _, [] => none
  | acc, c :: cs =>
      if c = '"' then some (acc.reverse, cs)
      else if c = '\\' then
        match cs with
        | 'u' :: a :: b :: c1 :: d :: rest =>
            match hex4 a b c1 d with
            | some v => parseStrBody (Char.ofNat v :: acc) rest
            | none => none
        | e :: rest =>
            match unescape e with
            | some ch => parseStrBody (ch :: acc) rest
            | none => none
        | [] => none
      else parseStrBody (c :: acc) cs

/-- Parse a JSON string literal, opening quote included. -/
def parseQuoted : List Char → Option (List Char × List Char)
  | '"' :: rest => parseStrBody [] rest
  | _ => none

/-- `"key": `, the serialized key of an object field. -/
def keyLit (k : String) : List Char := jStr (cl k) ++ [':', ' ']

/-- The item separator `", "`. -/
def commaLit : List Char := [',', ' ']

/-- Expect a sequence of exact fragments, in order. -/
def dropLits : List (List Char) → List Char → Option (List Char)
  | [], cs => some cs
  | f :: fs, cs =>
      match dropLit f cs with
      | some rest => dropLits fs rest
      | none => none

/-- A parser for one artifact line, independent of the builder: it
recognizes the line grammar the remote batch service requires and returns
the varying fields as a `RequestLine`. -/
def parseLine (cs : List Char) : Option RequestLine := do
  let cs ← dropLits [[lbrace], keyLit "custom_id"] cs
  let (cid, cs) ← parseQuoted cs
  let cs ← dropLits [commaLit, keyLit "method", jStr (cl "POST"), commaLit,
    keyLit "url", jStr (cl "/v1/responses"), commaLit, keyLit "body",
    [lbrace], keyLit "model"] cs
  let (mdl, cs) ← parseQuoted cs
  let cs ← dropLits [commaLit, keyLit "input", ['['], [lbrace], keyLit "role",
    jStr (cl "user"), commaLit, keyLit "content", ['['], [lbrace],
    keyLit "type", jStr (cl "input_text"), commaLit, keyLit "text"] cs
  let (_ptext, cs) ← parseQuoted cs
  let cs ← dropLits [[rbrace], commaLit, [lbrace], keyLit "type",
    jStr (cl "input_image"), commaLit, keyLit "image_url"] cs
  let (tgt, cs) ← parseQuoted cs
  let cs ← dropLits [[rbrace], [']'], [rbrace], [']'], commaLit, keyLit "text",
    textFormat, commaLit, keyLit "temperature"] cs
  let tmp := cs.takeWhile (fun c => c != ',')
  let cs := cs.dropWhile (fun c => c != ',')
  let cs ← dropLits [commaLit, keyLit "max_output_tokens", jNat 400, [rbrace], [rbrace]] cs
  match cs with
  | [] => some { custom_id := cid, target := tgt, model := mdl, temp := tmp }
  | _ => none

/-- The canned status sequence of the spec's polling test:
submitted, then in_progress, then completed (terminal) forever. -/
def cannedRetrieve (k : Nat) : Snapshot :=
  { status := ["submitted", "in_progress", "completed"].getD k "completed",
    output_file_id := none, error_file_id := none }

/-- A snapshot of an already finished job, for the resume scenario. -/
def doneSnap : Snapshot :=
  { status := "completed", output_file_id := some "o", error_file_id := none }

theorem digitChar_toNat {d : Nat} (h : d < 10) : (digitChar d).toNat = 48 + d := by
  interval_cases d <;> decide

theorem digitChar_ne_dash {d : Nat} (h : d < 10) : digitChar d ≠ '-' := by
  interval_cases d <;> decide

theorem toDecimalAux_foldl :
    ∀ (fuel n : Nat), n < fuel → ∀ acc : Nat,
      (toDecimalAux fuel n).foldl decStep acc =
        acc * 10 ^ (toDecimalAux fuel n).length + n := by
  intro fuel
  induction fuel with
  | zero => intro n h; omega
  | succ fuel ih =>
      intro n h acc
      by_cases h10 : n < 10
      · simp only [toDecimalAux, if_pos h10, List.foldl_cons, List.foldl_nil,
          List.length_singleton, pow_one, decStep, digitChar_toNat h10]
        omega
      · have hdiv : n / 10 < fuel := by
          have : n / 10 < n := Nat.div_lt_self (by omega) (by omega)
          omega
        simp only [toDecimalAux, if_neg h10, List.foldl_append, List.foldl_cons,
          List.foldl_nil, List.length_append, List.length_singleton]
        rw [ih (n / 10) hdiv acc]
        simp only [decStep, digitChar_toNat (Nat.mod_lt n (by omega))]
        have hmod : 48 + n % 10 - 48 = n % 10 := by omega
        rw [hmod, pow_succ]
        have := Nat.div_add_mod n 10
        ring_nf
        omega

theorem ofDecimal_toDecimal (n : Nat) : ofDecimal (toDecimal n) = n := by
  unfold ofDecimal toDecimal
  rw [toDecimalAux_foldl (n + 1) n (Nat.lt_succ_self n) 0]
  simp

theorem toDecimalAux_digits :
    ∀ (fuel n : Nat), ∀ c ∈ toDecimalAux fuel n, ∃ d, d < 10 ∧ c = digitChar d := by
  intro fuel
  induction fuel with
  | zero => intro n c hc; simp [toDecimalAux] at hc
  | succ fuel ih =>
      intro n c hc
      by_cases h10 : n < 10
      · simp only [toDecimalAux, if_pos h10, List.mem_singleton] at hc
        exact ⟨n, h10, hc⟩
      · simp only [toDecimalAux, if_neg h10, List.mem_append, List.mem_singleton] at hc
        rcases hc with hc | hc
        · exact ih (n / 10) c hc
        · exact ⟨n % 10, Nat.mod_lt n (by omega), hc⟩

theorem pad5_ne_dash (n : Nat) : ∀ c ∈ pad5 n, c ≠ '-' := by
  intro c hc
  simp only [pad5, List.mem_append, List.mem_replicate] at hc
  rcases hc with ⟨-, rfl⟩ | hc
  · decide
  · obtain ⟨d, hd, rfl⟩ := toDecimalAux_digits _ _ c hc
    exact digitChar_ne_dash hd

theorem foldl_decStep_replicate_zero :
    ∀ (k : Nat), (List.replicate k '0').foldl decStep 0 = 0 := by
  intro k
  induction k with
  | zero => rfl
  | succ k ih => simpa [List.replicate_succ, decStep] using ih

theorem ofDecimal_pad5 (n : Nat) : ofDecimal (pad5 n) = n := by
  unfold pad5
  unfold ofDecimal
  rw [List.foldl_append, foldl_decStep_replicate_zero]
  exact ofDecimal_toDecimal n

theorem takeWhile_until_dash :
    ∀ (A B : List Char), (∀ c ∈ A, c ≠ '-') →
      (A ++ '-' :: B).takeWhile (fun c => c != '-') = A := by
  intro A
  induction A with
  | nil => intro B _; simp [List.takeWhile]
  | cons a A ih =>
      intro B h
      have ha : a ≠ '-' := h a (List.mem_cons_self a A)
      simp only [List.cons_append, List.takeWhile_cons]
      rw [if_pos (by simpa using ha)]
      rw [ih B (fun c hc => h c (List.mem_cons_of_mem a hc))]

/-- The index is recoverable from the `custom_id`, for every index and URL. -/
theorem decodeIdx_customId (i : Nat) (url : List Char) :
    decodeIdx (customId i url) = i := by
  unfold decodeIdx customId
  have h3 : (cl "ui-").length = 3 := rfl
  rw [show (cl "ui-" ++ pad5 i ++ '-' :: safe_stem_from_url url).drop 3
        = pad5 i ++ '-' :: safe_stem_from_url url from by
      rw [← h3]
      simp [List.drop_left]]
  rw [takeWhile_until_dash (pad5 i) _ (pad5_ne_dash i)]
  exact ofDecimal_pad5 i

/-! ### Structure of the encoder output -/

theorem requestLines_length (model temp : List Char) :
    ∀ (i : Nat) (us : List (List Char)),
      (requestLines model temp i us).length = us.length := by
  intro i us
  induction us generalizing i with
  | nil => rfl
  | cons u us ih => simp [requestLines, ih]

theorem requestLines_getElem? (model temp : List Char) :
    ∀ (us : List (List Char)) (i k : Nat),
      (requestLines model temp i us)[k]? =
        us[k]?.map (fun u => make_request_line (i + k) u model temp) := by
  intro us
  induction us with
  | nil => intro i k; simp [requestLines]
  | cons u us ih =>
      intro i k
      cases k with
      | zero => simp [requestLines]
      | succ k =>
          simp only [requestLines, List.getElem?_cons_succ, ih (i + 1) k]
          have : i + 1 + k = i + (k + 1) := by omega
          rw [this]

theorem mem_requestLines_decode (model temp : List Char) :
    ∀ (us : List (List Char)) (i : Nat) (r : RequestLine),
      r ∈ requestLines model temp i us → i ≤ decodeIdx r.custom_id := by
  intro us
  induction us with
  | nil => intro i r hr; simp [requestLines] at hr
  | cons u us ih =>
      intro i r hr
      simp only [requestLines, List.mem_cons] at hr
      rcases hr with rfl | hr
      · simp [make_request_line, decodeIdx_customId]
      · have := ih (i + 1) r hr
        omega

/-- Successive indices give pairwise distinct `custom_id`s, whatever the URLs. -/
theorem requestLines_ids_nodup (model temp : List Char) :
    ∀ (us : List (List Char)) (i : Nat),
      ((requestLines model temp i us).map RequestLine.custom_id).Nodup := by
  intro us
  induction us with
  | nil => intro i; simp [requestLines]
  | cons u us ih =>
      intro i
      simp only [requestLines, List.map_cons, List.nodup_cons]
      refine ⟨?_, ih (i + 1)⟩
      intro hmem
      obtain ⟨r, hr, hid⟩ := List.mem_map.mp hmem
      have h1 : i + 1 ≤ decodeIdx r.custom_id := mem_requestLines_decode model temp us (i + 1) r hr
      rw [hid] at h1
      simp [make_request_line, decodeIdx_customId] at h1

/-! ### Polling-loop lemmas -/

theorem isTerminal_iff (s : String) :
    isTerminal s = true ↔
      (s = "completed" ∨ s = "failed" ∨ s = "expired" ∨ s = "cancelled") := by
  simp [isTerminal, TERMINAL]

theorem pollLoop_some_spec (retrieve : Nat → Snapshot) :
    ∀ (fuel k n : Nat) (b : Snapshot), pollLoop retrieve fuel k = some (n, b) →
      k < n ∧ n ≤ k + fuel ∧ b = retrieve (n - 1) ∧
      isTerminal (retrieve (n - 1)).status = true ∧
      ∀ j, k ≤ j → j < n - 1 → isTerminal (retrieve j).status = false := by
  intro fuel
  induction fuel with
  | zero => intro k n b h; simp [pollLoop] at h
  | succ fuel ih =>
      intro k n b h
      by_cases ht : isTerminal (retrieve k).status = true
      · rw [pollLoop, if_pos ht] at h
        obtain ⟨rfl, rfl⟩ : n = k + 1 ∧ b = retrieve k := by
          injection h with h'
          exact ⟨(congrArg Prod.fst h').symm, (congrArg Prod.snd h').symm⟩
        refine ⟨by omega, by omega, by simp, by simpa using ht, ?_⟩
        intro j hj hj'
        omega
      · rw [pollLoop, if_neg ht] at h
        obtain ⟨h1, h2, h3, h4, h5⟩ := ih (k + 1) n b h
        refine ⟨by omega, by omega, h3, h4, ?_⟩
        intro j hj hj'
        rcases Nat.eq_or_lt_of_le hj with rfl | hlt
        · exact Bool.eq_false_iff.mpr ht
        · exact h5 j hlt hj'

theorem pollLoop_none_spec (retrieve : Nat → Snapshot) :
    ∀ (fuel k : Nat), pollLoop retrieve fuel k = none ↔
      ∀ j, k ≤ j → j < k + fuel → isTerminal (retrieve j).status = false := by
  intro fuel
  induction fuel with
  | zero =>
      intro k
      constructor
      · intro _ j hj hj'; omega
      · intro _; rfl
  | succ fuel ih =>
      intro k
      by_cases ht : isTerminal (retrieve k).status = true
      · rw [pollLoop, if_pos ht]
        constructor
        · intro h; exact absurd h (by simp)
        · intro h
          have := h k (le_refl k) (by omega)
          rw [ht] at this
          exact absurd this (by simp)
      · rw [pollLoop, if_neg ht]
        rw [ih (k + 1)]
        constructor
        · intro h j hj hj'
          rcases Nat.eq_or_lt_of_le hj with rfl | hlt
          · exact Bool.eq_false_iff.mpr ht
          · exact h j hlt (by omega)
        · intro h j hj hj'
          exact h j (by omega) (by omega)

theorem pollTrace_terminal (retrieve : Nat → Snapshot) (fuel k : Nat)
    (ht : isTerminal (retrieve k).status = true) :
    pollTrace retrieve (fuel + 1) k = [PollEvent.query (retrieve k).status] := by
  rw [pollTrace, if_pos ht]

theorem mem_resultRecords (files : String → List String) (b : Snapshot) (r : String) :
    r ∈ resultRecords files b ↔
      (∃ fid, b.output_file_id = some fid ∧ r ∈ files fid) ∨
      (∃ fid, b.error_file_id = some fid ∧ r ∈ files fid) := by
  rcases b with ⟨st, ofid, efid⟩
  cases ofid <;> cases efid <;>
    simp [resultRecords, savedOutput, savedErrors]

/-! ### Serializer and parser lemmas -/

theorem dropLit_self : ∀ (t rest : List Char), dropLit t (t ++ rest) = some rest := by
  intro t
  induction t with
  | nil => intro rest; rfl
  | cons c t ih => intro rest; simp [dropLit, ih]

theorem dropLits_cons_self (f : List Char) (fs : List (List Char)) (rest : List Char) :
    dropLits (f :: fs) (f ++ rest) = dropLits fs rest := by
  simp [dropLits, dropLit_self]

theorem hexVal_hexDigit {d : Nat} (h : d < 16) : hexVal (hexDigit d) = some d := by
  interval_cases d <;> decide

theorem hex4_zz {hi lo : Nat} (h1 : hi < 16) (h0 : lo < 16) :
    hex4 '0' '0' (hexDigit hi) (hexDigit lo) = some (hi * 16 + lo) := by
  simp only [hex4, hexVal_hexDigit h1, hexVal_hexDigit h0,
    show hexVal '0' = some 0 from rfl]
  simp

theorem parseStrBody_escChar (c : Char) (acc t : List Char) :
    parseStrBody acc (escChar c ++ t) = parseStrBody (c :: acc) t := by
  by_cases h1 : c = '\\'
  · subst h1; rfl
  · by_cases h2 : c = '"'
    · subst h2; rfl
    · by_cases h3 : c = '\x08'
      · subst h3; rfl
      · by_cases h4 : c = '\x0c'
        · subst h4; rfl
        · by_cases h5 : c = '\n'
          · subst h5; rfl
          · by_cases h6 : c = '\r'
            · subst h6; rfl
            · by_cases h7 : c = '\t'
              · subst h7; rfl
              · by_cases h8 : c.toNat < 32
                · have hdiv : c.toNat / 16 < 16 := by omega
                  have hmod : c.toNat % 16 < 16 := Nat.mod_lt _ (by omega)
                  rw [show escChar c = ['\\', 'u', '0', '0', hexDigit (c.toNat / 16), hexDigit (c.toNat % 16)] from by
                    simp [escChar, h1, h2, h3, h4, h5, h6, h7, h8]]
                  simp only [List.cons_append, List.nil_append]
                  rw [show parseStrBody acc ('\\' :: 'u' :: '0' :: '0' :: hexDigit (c.toNat / 16) :: hexDigit (c.toNat % 16) :: t) =
                      (match hex4 '0' '0' (hexDigit (c.toNat / 16)) (hexDigit (c.toNat % 16)) with
                       | some v => parseStrBody (Char.ofNat v :: acc) t
                       | none => none) from rfl]
                  rw [hex4_zz hdiv hmod]
                  have hv : c.toNat / 16 * 16 + c.toNat % 16 = c.toNat := by omega
                  rw [hv]
                  show parseStrBody (Char.ofNat c.toNat :: acc) t = parseStrBody (c :: acc) t
                  rw [Char.ofNat_toNat]
                · rw [show escChar c = [c] from by simp [escChar, h1, h2, h3, h4, h5, h6, h7, h8]]
                  simp only [List.cons_append, List.nil_append]
                  rw [parseStrBody.eq_def]
                  simp only [if_neg h2, if_neg h1]

theorem parseStrBody_escStr :
    ∀ (s acc rest : List Char),
      parseStrBody acc (escStr s ++ '"' :: rest) = some (acc.reverse ++ s, rest) := by
  intro s
  induction s with
  | nil => intro acc rest; rw [show escStr [] ++ '"' :: rest = '"' :: rest from rfl, parseStrBody.eq_def]; simp
  | cons c s ih =>
      intro acc rest
      rw [show escStr (c :: s) = escChar c ++ escStr s from rfl, List.append_assoc,
        parseStrBody_escChar, ih]
      simp

theorem parseQuoted_jStr (s rest : List Char) :
    parseQuoted (jStr s ++ rest) = some (s, rest) := by
  rw [show jStr s ++ rest = '"' :: (escStr s ++ ('"' :: rest)) from by simp [jStr]]
  rw [show parseQuoted ('"' :: (escStr s ++ ('"' :: rest))) =
      parseStrBody [] (escStr s ++ ('"' :: rest)) from rfl]
  rw [parseStrBody_escStr]
  rfl

theorem takeWhile_no_comma {t : List Char} (h : ∀ c ∈ t, c ≠ ',') (X : List Char) :
    (t ++ (commaLit ++ X)).takeWhile (fun c => c != ',') = t := by
  induction t with
  | nil => simp [commaLit, List.takeWhile]
  | cons c t ih =>
      have hc : c ≠ ',' := h c (List.mem_cons_self c t)
      simp only [List.cons_append, List.takeWhile_cons]
      rw [if_pos (by simpa using hc)]
      rw [ih (fun x hx => h x (List.mem_cons_of_mem c hx))]

theorem dropWhile_no_comma {t : List Char} (h : ∀ c ∈ t, c ≠ ',') (X : List Char) :
    (t ++ (commaLit ++ X)).dropWhile (fun c => c != ',') = commaLit ++ X := by
  induction t with
  | nil => simp [commaLit, List.dropWhile]
  | cons c t ih =>
      have hc : c ≠ ',' := h c (List.mem_cons_self c t)
      simp only [List.cons_append, List.dropWhile_cons]
      rw [if_pos (by simpa using hc)]
      exact ih (fun x hx => h x (List.mem_cons_of_mem c hx))

theorem serLine_decomp (r : RequestLine) :
    serLine r =
      ([lbrace] ++ (keyLit "custom_id" ++ (jStr r.custom_id ++ (commaLit ++ (keyLit "method" ++
      (jStr (cl "POST") ++ (commaLit ++ (keyLit "url" ++ (jStr (cl "/v1/responses") ++
      (commaLit ++ (keyLit "body" ++ ([lbrace] ++ (keyLit "model" ++ (jStr r.model ++
      (commaLit ++ (keyLit "input" ++ (['['] ++ ([lbrace] ++ (keyLit "role" ++ (jStr (cl
      "user") ++ (commaLit ++ (keyLit "content" ++ (['['] ++ ([lbrace] ++ (keyLit "type"
      ++ (jStr (cl "input_text") ++ (commaLit ++ (keyLit "text" ++ (jStr (cl PROMPT) ++
      ([rbrace] ++ (commaLit ++ ([lbrace] ++ (keyLit "type" ++ (jStr (cl "input_image") ++
      (commaLit ++ (keyLit "image_url" ++ (jStr r.target ++ ([rbrace] ++ ([']'] ++
      ([rbrace] ++ ([']'] ++ (commaLit ++ (keyLit "text" ++ (textFormat ++ (commaLit ++
      (keyLit "temperature" ++ (r.temp ++ (commaLit ++ (keyLit "max_output_tokens" ++
      (jNat 400 ++ ([rbrace] ++ ([rbrace] ++
      [])))))))))))))))))))))))))))))))))))))))))))))))))))) := by
  simp [serLine, jObj, jArr, joinComma, keyLit, commaLit]

theorem dropLits_nil (cs : List Char) : dropLits [] cs = some cs := rfl

theorem parseLine_serLine (r : RequestLine) (h : ∀ c ∈ r.temp, c ≠ ',') :
    parseLine (serLine r) = some r := by
  obtain ⟨cid, tgt, mdl, tmp⟩ := r
  rw [serLine_decomp]
  simp only [parseLine, dropLits_cons_self, dropLits_nil, parseQuoted_jStr,
    Option.some_bind, Option.bind_eq_bind, takeWhile_no_comma h, dropWhile_no_comma h]

/-! ### Newline-freeness, file lines, and the build loop -/

theorem hexDigit_ne_nl {d : Nat} (h : d < 16) : hexDigit d ≠ '\n' := by
  interval_cases d <;> decide

theorem nlFree_escChar (c : Char) : ∀ x ∈ escChar c, x ≠ '\n' := by
  intro x hx
  unfold escChar at hx
  by_cases h1 : c = '\\'
  · simp [h1] at hx; subst hx; decide
  · rw [if_neg h1] at hx
    by_cases h2 : c = '"'
    · simp [h2] at hx; rcases hx with rfl | rfl <;> decide
    · rw [if_neg h2] at hx
      by_cases h3 : c = '\x08'
      · simp [h3] at hx; rcases hx with rfl | rfl <;> decide
      · rw [if_neg h3] at hx
        by_cases h4 : c = '\x0c'
        · simp [h4] at hx; rcases hx with rfl | rfl <;> decide
        · rw [if_neg h4] at hx
          by_cases h5 : c = '\n'
          · simp [h5] at hx; rcases hx with rfl | rfl <;> decide
          · rw [if_neg h5] at hx
            by_cases h6 : c = '\r'
            · simp [h6] at hx; rcases hx with rfl | rfl <;> decide
            · rw [if_neg h6] at hx
              by_cases h7 : c = '\t'
              · simp [h7] at hx; rcases hx with rfl | rfl <;> decide
              · rw [if_neg h7] at hx
                by_cases h8 : c.toNat < 32
                · rw [if_pos h8] at hx
                  have hdiv : c.toNat / 16 < 16 := by omega
                  have hmod : c.toNat % 16 < 16 := Nat.mod_lt _ (by omega)
                  simp at hx
                  rcases hx with rfl | rfl | rfl | rfl | rfl | rfl <;>
                    first
                      | decide
                      | exact hexDigit_ne_nl hdiv
                      | exact hexDigit_ne_nl hmod
                · rw [if_neg h8] at hx
                  simp at hx
                  subst hx
                  intro hc
                  rw [hc] at h8
                  exact h8 (by decide)

theorem nlFree_escStr (s : List Char) : ∀ x ∈ escStr s, x ≠ '\n' := by
  induction s with
  | nil => intro x hx; simp [escStr] at hx
  | cons c s ih =>
      intro x hx
      rw [show escStr (c :: s) = escChar c ++ escStr s from rfl] at hx
      rcases List.mem_append.mp hx with h | h
      · exact nlFree_escChar c x h
      · exact ih x h

theorem nlFree_jStr (s : List Char) : ∀ x ∈ jStr s, x ≠ '\n' := by
  intro x hx
  simp only [jStr, List.mem_cons, List.mem_append, List.mem_singleton] at hx
  rcases hx with (rfl | hx) | (rfl | h0)
  · decide
  · exact nlFree_escStr s x hx
  · decide
  · exact absurd h0 (List.not_mem_nil x)

theorem nlFree_keyLit (k : String) : ∀ x ∈ keyLit k, x ≠ '\n' := by
  intro x hx
  rcases List.mem_append.mp hx with h | h
  · exact nlFree_jStr (cl k) x h
  · simp at h; rcases h with rfl | rfl <;> decide

set_option maxRecDepth 8192 in
theorem nlFree_textFormat : ∀ x ∈ textFormat, x ≠ '\n' := by decide

theorem nlFree_commaLit : ∀ x ∈ commaLit, x ≠ '\n' := by decide

theorem nlFree_jNat400 : ∀ x ∈ jNat 400, x ≠ '\n' := by decide

theorem nlFree_lbrace : ∀ x ∈ [lbrace], x ≠ '\n' := by decide

theorem nlFree_rbrace : ∀ x ∈ [rbrace], x ≠ '\n' := by decide

theorem nlFree_lbrack : ∀ x ∈ (['['] : List Char), x ≠ '\n' := by decide

theorem nlFree_rbrack : ∀ x ∈ ([']'] : List Char), x ≠ '\n' := by decide

theorem nlFree_serLine {r : RequestLine} (ht : ∀ c ∈ r.temp, c ≠ '\n') :
    ∀ x ∈ serLine r, x ≠ '\n' := by
  intro x hx
  rw [serLine_decomp] at hx
  simp only [List.mem_append] at hx
  rcases hx with h|h|h|h|h|h|h|h|h|h|h|h|h|h|h|h|h|h|h|h|h|h|h|h|h|h|h|h|h|h|h|h|h|h|h|h|h|h|h|h|h|h|h|h|h|h|h|h|h|h|h|h|h
  all_goals first
    | exact nlFree_jStr _ x h
    | exact nlFree_keyLit _ x h
    | exact ht x h
    | exact nlFree_textFormat x h
    | exact nlFree_commaLit x h
    | exact nlFree_jNat400 x h
    | exact nlFree_lbrace x h
    | exact nlFree_rbrace x h
    | exact nlFree_lbrack x h
    | exact nlFree_rbrack x h
    | exact absurd h (List.not_mem_nil x)

theorem linesNL_append (l : List Char) (hl : ∀ c ∈ l, c ≠ '\n') (rest : List Char) :
    linesNL (l ++ '\n' :: rest) = l :: linesNL rest := by
  induction l with
  | nil => simp [linesNL]
  | cons c l ih =>
      have hc : c ≠ '\n' := hl c (List.mem_cons_self c l)
      have ih' := ih (fun x hx => hl x (List.mem_cons_of_mem c hx))
      simp only [List.cons_append, linesNL, if_neg hc, List.append_eq, ih']

theorem linesNL_foldr (arts : List (List Char))
    (h : ∀ l ∈ arts, ∀ c ∈ l, c ≠ '\n') :
    linesNL (arts.foldr (fun l acc => l ++ '\n' :: acc) []) = arts := by
  induction arts with
  | nil => rfl
  | cons l arts ih =>
      rw [List.foldr_cons, linesNL_append l (h l (List.mem_cons_self l arts))]
      rw [ih (fun x hx => h x (List.mem_cons_of_mem l hx))]

theorem buildArtifact_spec {α : Type} (ser : α → Except String (List Char)) :
    ∀ (items : List α) (written : List Char),
      buildArtifact ser items written =
        (written ++ (serPrefixOk ser items).foldr (fun l acc => l ++ '\n' :: acc) [],
         firstSerErr ser items) := by
  intro items
  induction items with
  | nil => intro written; simp [buildArtifact, serPrefixOk, firstSerErr]
  | cons r rs ih =>
      intro written
      cases hser : ser r with
      | ok line =>
          simp only [buildArtifact, serPrefixOk, firstSerErr, hser, ih, List.foldr_cons]
          simp [List.append_assoc]
      | error e =>
          simp [buildArtifact, serPrefixOk, firstSerErr, hser]

theorem mem_requestLines_fields (model temp : List Char) :
    ∀ (us : List (List Char)) (i : Nat) (r : RequestLine),
      r ∈ requestLines model temp i us → r.model = model ∧ r.temp = temp := by
  intro us
  induction us with
  | nil => intro i r hr; simp [requestLines] at hr
  | cons u us ih =>
      intro i r hr
      simp only [requestLines, List.mem_cons] at hr
      rcases hr with rfl | hr
      · exact ⟨rfl, rfl⟩
      · exact ih (i + 1) r hr


/-! ### Claim theorems -/

/-- Claim C2, counterexample: on the input `["http://x/a.png", "http://x/a.png"]`
the encoder's custom_ids are not `ui-00001-a_png` and `ui-00002-a_png`:
the dot of `a.png` is inside the allowed class `[A-Za-z0-9._-]` and is kept. -/
theorem C2_counterexample :
    (requestLines (cl "gpt-4o") (cl "0.2") 1
        [cl "http://x/a.png", cl "http://x/a.png"]).map RequestLine.custom_id ≠
      [cl "ui-00001-a_png", cl "ui-00002-a_png"] := by decide

/-- Claim C2 as amended: the two requests receive the distinct ids
`ui-00001-a.png` and `ui-00002-a.png`, the index making them unique. -/
theorem C2_amended :
    (requestLines (cl "gpt-4o") (cl "0.2") 1
        [cl "http://x/a.png", cl "http://x/a.png"]).length = 2 ∧
    (requestLines (cl "gpt-4o") (cl "0.2") 1
        [cl "http://x/a.png", cl "http://x/a.png"]).map RequestLine.custom_id =
      [cl "ui-00001-a.png", cl "ui-00002-a.png"] ∧
    cl "ui-00001-a.png" ≠ cl "ui-00002-a.png" := by decide

/-- Claim C5, counterexample: for the target `http://x/` the code emits the
fallback stem `image`, while the slug procedure the claim spells out
(strip query, trailing segment, sanitize, truncate) yields the empty slug. -/
theorem C5_counterexample :
    customId 1 (cl "http://x/") = cl "ui-00001-image" ∧
    cl "ui-" ++ pad5 1 ++ '-' :: specSlugC5 (cl "http://x/") = cl "ui-00001-" ∧
    customId 1 (cl "http://x/") ≠ cl "ui-" ++ pad5 1 ++ '-' :: specSlugC5 (cl "http://x/") := by
  decide

/-- Claim C5 as amended: every custom_id is the zero-padded index combined
with the claim's slug derivation applied to the whitespace-stripped target,
with the literal fallback stem `image` when the trailing segment is empty. -/
theorem C5_amended (idx : Nat) (url : List Char) :
    customId idx url = cl "ui-" ++ pad5 idx ++ '-' :: amendedSlugC5 url := by
  have hslug : safe_stem_from_url url = amendedSlugC5 url := by
    simp only [safe_stem_from_url, amendedSlugC5]
    by_cases h : lastSegment (stripQuery (pyStrip url)) = []
    · simp only [if_pos h]
      decide
    · simp only [if_neg h]
  unfold customId
  rw [hslug]


/-- Claim C1, counterexample: for a terminal (completed) job whose output
artifact holds one record and which has no error artifact, run_batch.py
persists exactly that one record, although the original request set has
two custom_ids; the second id receives no outcome at all, so the result
set size differs from the original request count and nothing is marked
missing. -/
theorem C1_counterexample :
    isTerminal "completed" = true ∧
    resultRecords (fun fid => if fid = "out-file" then ["record for ui-00001-a.png"] else [])
        { status := "completed", output_file_id := some "out-file", error_file_id := none } =
      ["record for ui-00001-a.png"] ∧
    (requestLines (cl "gpt-4o") (cl "0.2") 1 [cl "http://x/a.png", cl "http://x/b.png"]).length = 2 ∧
    (resultRecords (fun fid => if fid = "out-file" then ["record for ui-00001-a.png"] else [])
        { status := "completed", output_file_id := some "out-file", error_file_id := none }).length ≠
      (requestLines (cl "gpt-4o") (cl "0.2") 1 [cl "http://x/a.png", cl "http://x/b.png"]).length := by
  refine ⟨rfl, rfl, rfl, by decide⟩

/-- Claim C1 as amended: for a terminal job the code only downloads the
artifacts verbatim; every persisted result record is a line of the output
artifact or of the error artifact, and no outcome of any kind is produced
for an id that appears in neither (there is no cross-referencing against
the original request set). -/
theorem C1_amended (files : String → List String) (b : Snapshot)
    (_hterm : isTerminal b.status = true) :
    ∀ r, r ∈ resultRecords files b ↔
      ((∃ fid, b.output_file_id = some fid ∧ r ∈ files fid) ∨
       (∃ fid, b.error_file_id = some fid ∧ r ∈ files fid)) := by
  intro r
  exact mem_resultRecords files b r

/-- Claim C1, witness for the amended theorem at a concrete completed job. -/
theorem C1_amended_witness :
    isTerminal "completed" = true ∧
    ("rec" ∈ resultRecords (fun _ => ["rec"])
        { status := "completed", output_file_id := some "f", error_file_id := none } ↔
      ((∃ fid, (some "f" : Option String) = some fid ∧ "rec" ∈ ["rec"]) ∨
       (∃ fid, (none : Option String) = some fid ∧ "rec" ∈ ["rec"]))) :=
  ⟨by decide,
   C1_amended (fun _ => ["rec"])
     { status := "completed", output_file_id := some "f", error_file_id := none }
     (by decide) "rec"⟩

/-- Claim C3, counterexample: with a serializer that fails on the second
request, the build aborts with the serialization error, but the final
output path is not left unchanged: it was truncated on open and now holds
the partially written artifact (the first line). -/
theorem C3_counterexample :
    buildToFinalPath failingSer [0, 1] (cl "old") = (cl "A" ++ ['\n'], some "unserializable") ∧
    (buildToFinalPath failingSer [0, 1] (cl "old")).1 ≠ cl "old" ∧
    (buildToFinalPath failingSer [0, 1] (cl "old")).1 ≠ [] := by
  refine ⟨rfl, by decide, by decide⟩

/-- Claim C3 as amended: the artifact is written directly to the final
output path, which is truncated at open; if some request cannot be
encoded, the first serialization error aborts the build and propagates,
and the final path is left holding exactly the newline-terminated lines of
the successfully serialized prefix — a partial artifact, with no temporary
file or atomic rename involved. -/
theorem C3_amended {α : Type} (ser : α → Except String (List Char))
    (items : List α) (prev : List Char) :
    buildToFinalPath ser items prev =
      ((serPrefixOk ser items).foldr (fun l acc => l ++ '\n' :: acc) [],
       firstSerErr ser items) := by
  unfold buildToFinalPath
  simpa using buildArtifact_spec ser items []

/-- Claim C4: the polling loop stops exactly at the first terminal status —
the terminal set being completed, failed, expired, cancelled — re-querying
after a wait otherwise; on the canned status sequence
submitted, in_progress, completed it stops after exactly three queries,
and within any observation window it is still running iff every status
seen so far is non-terminal. -/
theorem C4_polling (retrieve : Nat → Snapshot) (fuel : Nat) :
    (∀ s, isTerminal s = true ↔
      (s = "completed" ∨ s = "failed" ∨ s = "expired" ∨ s = "cancelled")) ∧
    (∀ n b, pollLoop retrieve fuel 0 = some (n, b) →
      1 ≤ n ∧ n ≤ fuel ∧ b = retrieve (n - 1) ∧
      isTerminal (retrieve (n - 1)).status = true ∧
      ∀ k, k < n - 1 → isTerminal (retrieve k).status = false) ∧
    (pollLoop retrieve fuel 0 = none ↔
      ∀ k, k < fuel → isTerminal (retrieve k).status = false) ∧
    pollLoop cannedRetrieve 3 0 =
      some (3, { status := "completed", output_file_id := none, error_file_id := none }) := by
  refine ⟨isTerminal_iff, ?_, ?_, by decide⟩
  · intro n b h
    obtain ⟨h1, h2, h3, h4, h5⟩ := pollLoop_some_spec retrieve fuel 0 n b h
    exact ⟨by omega, by omega, h3, h4, fun k hk => h5 k (Nat.zero_le k) hk⟩
  · rw [pollLoop_none_spec retrieve fuel 0]
    constructor
    · intro h k hk
      exact h k (Nat.zero_le k) (by omega)
    · intro h k _ hk
      exact h k (by omega)

/-- Claim C4, witness: on the canned sequence the loop stops after three
queries, the third status is terminal and the first two are not. -/
theorem C4_polling_witness :
    isTerminal (cannedRetrieve 2).status = true ∧
    isTerminal (cannedRetrieve 0).status = false ∧
    isTerminal (cannedRetrieve 1).status = false := by
  have h := (C4_polling cannedRetrieve 3).2.1 3
    { status := "completed", output_file_id := none, error_file_id := none } (by decide)
  exact ⟨by simpa using h.2.2.2.1, h.2.2.2.2 0 (by decide), h.2.2.2.2 1 (by decide)⟩

/-- Claim C6: for every non-empty input list the encoder yields exactly one
request per item, and the custom_ids are pairwise distinct, duplicates and
colliding slugs notwithstanding, because the one-based index is recoverable
from the id. -/
theorem C6_unique_ids (model temp : List Char) (urls : List (List Char))
    (_hne : urls ≠ []) :
    (requestLines model temp 1 urls).length = urls.length ∧
    ((requestLines model temp 1 urls).map RequestLine.custom_id).Nodup :=
  ⟨requestLines_length model temp 1 urls, requestLines_ids_nodup model temp urls 1⟩

/-- Claim C6, witness: two identical URLs still give two requests with
distinct ids. -/
theorem C6_unique_ids_witness :
    (requestLines (cl "gpt-4o") (cl "0.2") 1 [cl "http://x/a.png", cl "http://x/a.png"]).length = 2 ∧
    ((requestLines (cl "gpt-4o") (cl "0.2") 1
        [cl "http://x/a.png", cl "http://x/a.png"]).map RequestLine.custom_id).Nodup := by
  have h := C6_unique_ids (cl "gpt-4o") (cl "0.2") [cl "http://x/a.png", cl "http://x/a.png"]
    (by simp)
  simpa using h



/-- Claim C7: the artifact of N requests has exactly N newline-terminated
lines, in input order, and each line independently parses back to the
request it came from — same custom_id and same target — whenever the
temperature literal is a comma-free, newline-free numeral (as every
floating-point literal is). -/
theorem C7_roundtrip (model temp : List Char) (urls : List (List Char))
    (htemp : ∀ c ∈ temp, c ≠ ',' ∧ c ≠ '\n') :
    (artifactLines model temp urls).length = urls.length ∧
    linesNL (fileContent model temp urls) = artifactLines model temp urls ∧
    (artifactLines model temp urls).map parseLine =
      (requestLines model temp 1 urls).map some := by
  refine ⟨?_, ?_, ?_⟩
  · simp [artifactLines, requestLines_length]
  · unfold fileContent
    apply linesNL_foldr
    intro l hl
    simp only [artifactLines, List.mem_map] at hl
    obtain ⟨r, hr, rfl⟩ := hl
    have hfields := mem_requestLines_fields model temp urls 1 r hr
    apply nlFree_serLine
    rw [hfields.2]
    exact fun c hc => (htemp c hc).2
  · unfold artifactLines
    rw [List.map_map]
    apply List.map_congr_left
    intro r hr
    have hfields := mem_requestLines_fields model temp urls 1 r hr
    have : ∀ c ∈ r.temp, c ≠ ',' := by
      rw [hfields.2]; exact fun c hc => (htemp c hc).1
    exact parseLine_serLine r this

/-- Claim C7, witness: a one-request artifact with the default temperature
literal 0.2 has one line and it parses back to the request. -/
theorem C7_roundtrip_witness :
    (artifactLines (cl "gpt-4o") (cl "0.2") [cl "http://x/a.png"]).length = 1 ∧
    linesNL (fileContent (cl "gpt-4o") (cl "0.2") [cl "http://x/a.png"]) =
      artifactLines (cl "gpt-4o") (cl "0.2") [cl "http://x/a.png"] ∧
    (artifactLines (cl "gpt-4o") (cl "0.2") [cl "http://x/a.png"]).map parseLine =
      (requestLines (cl "gpt-4o") (cl "0.2") 1 [cl "http://x/a.png"]).map some :=
  C7_roundtrip (cl "gpt-4o") (cl "0.2") [cl "http://x/a.png"] (by decide)

/-- Claim C8: the custom_id at any position of the encoder output is a pure
function of the position and the target there alone — two runs whose input
lists agree at position k (even with different models, temperatures, or
other entries) produce the same custom_id at k. -/
theorem C8_positional (m t m2 t2 : List Char) (i k : Nat)
    (us us2 : List (List Char)) (h : us[k]? = us2[k]?) :
    ((requestLines m t i us)[k]?).map RequestLine.custom_id =
      ((requestLines m2 t2 i us2)[k]?).map RequestLine.custom_id := by
  rw [requestLines_getElem? m t us i k, requestLines_getElem? m2 t2 us2 i k, h]
  cases us2[k]? <;> simp [make_request_line]

/-- Claim C8, witness: runs over different lists and parameters that agree
at position 1 assign it the same custom_id. -/
theorem C8_positional_witness :
    ((requestLines (cl "gpt-4o") (cl "0.2") 1 [cl "http://x/a.png", cl "http://x/b.png"])[1]?).map
        RequestLine.custom_id =
      ((requestLines (cl "o3") (cl "0.9") 1 [cl "http://y/zzz.png", cl "http://x/b.png"])[1]?).map
        RequestLine.custom_id :=
  C8_positional (cl "gpt-4o") (cl "0.2") (cl "o3") (cl "0.9") 1 1
    [cl "http://x/a.png", cl "http://x/b.png"] [cl "http://y/zzz.png", cl "http://x/b.png"]
    (by decide)

/-- Claim C9: for every input string the stem is non-empty, at most 60
characters, made only of characters in the class `[A-Za-z0-9._-]`, and it
is the literal `image` whenever the trailing path segment (after stripping
whitespace and the query string) is empty. -/
theorem C9_stem_props (url : List Char) :
    safe_stem_from_url url ≠ [] ∧
    (safe_stem_from_url url).length ≤ 60 ∧
    (∀ c ∈ safe_stem_from_url url, isSafeChar c = true) ∧
    (lastSegment (stripQuery (pyStrip url)) = [] → safe_stem_from_url url = cl "image") := by
  simp only [safe_stem_from_url]
  by_cases h : lastSegment (stripQuery (pyStrip url)) = []
  · simp only [if_pos h]
    refine ⟨by decide, by decide, by decide, fun _ => by decide⟩
  · simp only [if_neg h]
    have hlen : (lastSegment (stripQuery (pyStrip url))).length ≠ 0 :=
      fun h0 => h (List.eq_nil_of_length_eq_zero h0)
    refine ⟨?_, ?_, ?_, fun h0 => absurd h0 h⟩
    · intro hnil
      have h1 := congrArg List.length hnil
      rw [List.length_take] at h1
      simp only [sanitize, List.length_map, List.length_nil] at h1
      omega
    · simp [List.length_take]
    · intro c hc
      have hc2 : c ∈ sanitize (lastSegment (stripQuery (pyStrip url))) :=
        List.take_subset 60 _ hc
      simp only [sanitize, List.mem_map] at hc2
      obtain ⟨x, -, rfl⟩ := hc2
      by_cases hx : isSafeChar x
      · simp [hx]
      · simp only [if_neg hx]; decide

/-- Claim C9, witness: a URL whose trailing segment is empty gets the
fallback stem image, which is non-empty, short, and in-class. -/
theorem C9_stem_props_witness :
    safe_stem_from_url (cl "http://x/") ≠ [] ∧
    (safe_stem_from_url (cl "http://x/")).length ≤ 60 ∧
    (∀ c ∈ safe_stem_from_url (cl "http://x/"), isSafeChar c = true) ∧
    safe_stem_from_url (cl "http://x/") = cl "image" :=
  ⟨(C9_stem_props (cl "http://x/")).1, (C9_stem_props (cl "http://x/")).2.1,
   (C9_stem_props (cl "http://x/")).2.2.1, (C9_stem_props (cl "http://x/")).2.2.2 (by decide)⟩

/-- Claim C10: an iteration that observes a terminal status emits its query
and ends the loop with no sleep after it; in particular a job already
terminal at the first query exits after one query, sleeping zero times, and
the run proceeds straight to downloading, with the records drawn from that
first snapshot. -/
theorem C10_no_sleep_after_terminal (retrieve : Nat → Snapshot)
    (files : String → List String) (fuel : Nat) :
    (∀ fuel2 k, isTerminal (retrieve k).status = true →
       pollTrace retrieve (fuel2 + 1) k = [PollEvent.query (retrieve k).status]) ∧
    (isTerminal (retrieve 0).status = true →
       (pollTrace retrieve (fuel + 1) 0).count PollEvent.sleep = 0 ∧
       runTail retrieve files (fuel + 1) =
         some ([PollEvent.query (retrieve 0).status], resultRecords files (retrieve 0))) := by
  constructor
  · intro fuel2 k hk
    exact pollTrace_terminal retrieve fuel2 k hk
  · intro h0
    have htr := pollTrace_terminal retrieve fuel 0 h0
    constructor
    · rw [htr]
      simp [List.count_cons, List.count_nil]
    · unfold runTail
      rw [show pollLoop retrieve (fuel + 1) 0 = some (1, retrieve 0) from by
        rw [pollLoop, if_pos h0]]
      rw [htr]

/-- Claim C10, witness: a job already completed at the first query is
polled once, never slept on, and its output is downloaded directly. -/
theorem C10_no_sleep_witness :
    (pollTrace (fun _ => doneSnap) (0 + 1) 0).count PollEvent.sleep = 0 ∧
    runTail (fun _ => doneSnap) (fun _ => ["line1"]) (0 + 1) =
      some ([PollEvent.query "completed"], ["line1"]) :=
  (C10_no_sleep_after_terminal (fun _ => doneSnap) (fun _ => ["line1"]) 0).2 (by decide)

end AlienAI
